import Mathlib

/-!
Shallow embedding of the `student-marks-app` backend (three Python files:
`backend/app.py`, `backend/migrate_to_mongo.py`, `backend/models.py`)
and proofs about its spreadsheet-to-record reconciliation engine.

Modelling conventions:
* MongoDB collections become Lean lists of records; `update_one` with a
  filter updates the first matching record, `insert_one` appends,
  `delete_one` removes the first match, `delete_many` filters.
* A document field that is absent or holds Python `None` is modelled as
  `Option.none`.
* Timestamps (`datetime.utcnow()`) are modelled by a caller-supplied
  clock value `now : Nat`; no claim depends on distinct timestamps.
* Spreadsheet cells (pandas) are missing (`NaN`), text, or numeric;
  the numeric domain is modelled by integers (no claim depends on
  fractional values), and `float(x)` coercion of a text cell is
  modelled by integer parsing, which like Python's `float` can fail.
* bcrypt (the external Credential Service) is modelled by a
  deterministic tagging function; only `hash`/`verify` round-tripping
  and the non-emptiness of produced hashes matter to the claims.
-/

namespace StudentMarks

/-- ASCII whitespace, as stripped by Python's `str.strip()`. -/
def isSpace (c : Char) : Bool :=
  c == ' ' || c == '\t' || c == '\n' || c == '\r'

/-- Python `str.strip()` (leading and trailing whitespace removed),
implemented over the character list so concrete inputs evaluate. -/
def strip (s : String) : String :=
  ⟨((s.data.dropWhile isSpace).reverse.dropWhile isSpace).reverse⟩

/-- Python `str.lower()` for ASCII letters. -/
def lowerChar (c : Char) : Char :=
  if 'A' ≤ c && c ≤ 'Z' then Char.ofNat (c.toNat + 32) else c

/-- Lowercase a whole string. -/
def lower (s : String) : String := ⟨s.data.map lowerChar⟩

/-- Accumulate decimal digits; fails on any non-digit character. -/
def readDigits : List Char → Nat → Option Nat
  | [], acc => some acc
  | c :: cs, acc =>
    if c.isDigit then readDigits cs (acc * 10 + (c.toNat - 48)) else none

/-- Python `float(text)` model over the integer domain: an optional
sign followed by a nonempty digit string; anything else fails. -/
def parseNum (s : String) : Option Int :=
  match s.data with
  | [] => none
  | '-' :: cs =>
    if cs.isEmpty then none
    else (readDigits cs 0).map (fun n => -(n : Int))
  | cs => (readDigits cs 0).map (fun n => (n : Int))

/-- A raw spreadsheet cell as produced by the tabular reader (pandas):
a missing value (`NaN`), a text value, or a numeric value. -/
inductive Cell where
  | na
  | str (s : String)
  | num (n : Int)
deriving DecidableEq, Repr

/-- Python `str(x)` applied to a cell; pandas `NaN` prints as `"nan"`. -/
def cellStr : Cell → String
  | .na => "nan"
  | .str s => s
  | .num n => toString n

/-- Embeds `pd.isna(x)` on a cell. -/
def cellIsNa : Cell → Bool
  | .na => true
  | _ => false

/-- Numeric coercion `float(x)`: numbers pass through, text must parse
as a number; failure models the Python `ValueError`. -/
def cellFloat : Cell → Option Int
  | .na => none
  | .num n => some n
  | .str s => parseNum s

/-- Embeds `pd.to_datetime(x).date().isoformat()` model: a text cell parses
exactly when its trimmed form is an ISO date `dddd-dd-dd`; any other
cell fails (raising in Python, `none` here). -/
def parseDate : Cell → Option String
  | .str s =>
    let t := strip s
    match t.toList with
    | [a, b, c, d, '-', e, f, '-', g, h] =>
      if a.isDigit && b.isDigit && c.isDigit && d.isDigit
          && e.isDigit && f.isDigit && g.isDigit && h.isDigit then
        some t
      else none
    | _ => none
  | _ => none

/-- A parsed spreadsheet row: cells keyed by the file's column headers. -/
abbrev Row := List (String × Cell)

/-- Column-name normalization used by both import paths
(`c.lower().strip()`). -/
def normCol (c : String) : String := strip (lower c)

/-- Cell access by normalized column name (both paths read cells through
the normalized header: `app.py` renames `df.columns`, the migration
script goes through its `colmap`). `none` means the column is absent. -/
def rowGet (row : Row) (key : String) : Option Cell :=
  (row.find? (fun p => normCol p.fst == key)).map (·.snd)

/-- A parsed tabular file (`pandas.DataFrame`): the raw column headers
and the data rows; each row carries exactly the file's columns. -/
structure Frame where
  cols : List String
  rows : List Row
deriving Repr

/-- Embeds `key ∈ df.columns` after normalization. -/
def hasCol (f : Frame) (key : String) : Bool :=
  f.cols.any (fun c => normCol c == key)

/-- A document of the `students` collection. -/
structure Student where
  register_number : String
  student_name : Option String
  dob_hash : Option String
  created_at : Nat
deriving DecidableEq, Repr

/-- A document of the `marks` collection.  `source_file` is only written
by the web app's upload path; `subject_name` and `exam_date` only by the
migration script (MongoDB is schemaless, so all are optional). -/
structure Mark where
  register_number : String
  subject_code : String
  marks : Int
  uploaded_by : String
  uploaded_at : Nat
  source_file : Option String
  subject_name : Option String
  exam_date : Option String
deriving DecidableEq, Repr

/-- A document of the `uploads` collection. -/
structure Upload where
  filename : String
  uploaded_by : String
  uploaded_at : Nat
deriving DecidableEq, Repr

/-- The storage state.  `marksUnique` records whether the unique
compound index on `(register_number, subject_code)` exists: `app.py`
creates it at startup, while the migration script's `create_indexes`
only creates a non-unique index on `register_number`. -/
structure DB where
  students : List Student
  marks : List Mark
  uploads : List Upload
  marksUnique : Bool
deriving DecidableEq, Repr

/-- Startup index creation in `app.py` (the unique `(register_number,
subject_code)` index on `marks`; the unique `register_number` /
`email` indexes are implicit in the upsert modelling). -/
def appCreateIndexes (db : DB) : DB := { db with marksUnique := true }

/-- Embeds `create_indexes` of the migration script: only non-unique
`register_number` on `marks`, so no semantic effect in this model. -/
def create_indexes (db : DB) : DB := db

/-- Embeds `hash_text` / `bcrypt.hashpw`: deterministic model of the external
credential service.  Produced hashes are never empty. -/
def hash_text (t : String) : String := "bcrypt$" ++ t

/-- Embeds `bcrypt.checkpw` model: succeeds exactly on the matching pair. -/
def checkpw (t h : String) : Bool := h == hash_text t

/-- Embeds `verify_hash` of `app.py`: `bool(hashed) and bcrypt.checkpw(...)`.
The stored value may be absent/`None` (`none`) or a string; both the
`none` and `""` cases are falsy in Python and short-circuit to `False`
before bcrypt is called. -/
def verify_hash (t : String) (hashed : Option String) : Bool :=
  match hashed with
  | none => false
  | some h => h != "" && checkpw t h

/-- Embeds `verify_hash` of `models.py`: `if not hashed: return False` then
`bcrypt.checkpw`. -/
def models_verify_hash (t : String) (hashed : Option String) : Bool :=
  match hashed with
  | none => false
  | some h => if h = "" then false else checkpw t h

/-- Python truthiness of an optional string (`None` and `""` falsy). -/
def truthy : Option String → Bool
  | none => false
  | some s => s != ""

/-- Update the first element satisfying `p` (MongoDB `update_one`). -/
def updateFirst (p : α → Bool) (f : α → α) : List α → List α
  | [] => []
  | x :: xs => if p x then f x :: xs else x :: updateFirst p f xs

/-- Remove the first element satisfying `p` (MongoDB `delete_one`). -/
def eraseFirst (p : α → Bool) : List α → List α
  | [] => []
  | x :: xs => if p x then xs else x :: eraseFirst p xs

/-- Embeds `students_col.find_one({"register_number": reg})`. -/
def findStudent (l : List Student) (reg : String) : Option Student :=
  l.find? (fun s => s.register_number == reg)

/-- The stored `dob_hash` of the (first) student with a given register
number, `none` when no such student exists. -/
def studentHash (db : DB) (reg : String) : Option (Option String) :=
  (findStudent db.students reg).map (·.dob_hash)

/-- The stored `student_name` of the (first) student with a given
register number. -/
def studentName (db : DB) (reg : String) : Option (Option String) :=
  (findStudent db.students reg).map (·.student_name)

/-- Embeds `marks_col.find_one` by the compound key. -/
def findMark (l : List Mark) (reg subj : String) : Option Mark :=
  l.find? (fun m => m.register_number == reg && m.subject_code == subj)

/-- Number of `marks` documents with a given compound key. -/
def pairCount (l : List Mark) (reg subj : String) : Nat :=
  (l.filter (fun m => m.register_number == reg && m.subject_code == subj)).length

/-- Number of `uploads` documents with a given filename. -/
def countUploads (l : List Upload) (name : String) : Nat :=
  (l.filter (fun u => u.filename == name)).length

/-! ### The web app's upload path (`app.py`, `upload_marks`) -/

/-- Embeds `str(row.get("register_number", "")).strip()`. -/
def appRowReg (row : Row) : String :=
  match rowGet row "register_number" with
  | none => ""
  | some c => strip (cellStr c)

/-- Embeds `str(row.get("subject_code", "")).strip()`. -/
def appRowSubject (row : Row) : String :=
  match rowGet row "subject_code" with
  | none => ""
  | some c => strip (cellStr c)

/-- Embeds `row.get("marks")` (absent key behaves like `NaN` downstream). -/
def appRowMarks (row : Row) : Cell :=
  (rowGet row "marks").getD .na

/-- The skip condition of `upload_marks`:
`not reg or not subject or pd.isna(marks_val)`. -/
def appRowSkip (row : Row) : Bool :=
  appRowReg row == "" || appRowSubject row == "" || cellIsNa (appRowMarks row)

/-- Embeds `student_name` extraction in `upload_marks`. -/
def appRowName (row : Row) : Option String :=
  match rowGet row "student_name" with
  | none => none
  | some c => if cellIsNa c then none else some (strip (cellStr c))

/-- Embeds `dob` extraction in `upload_marks`: `pd.to_datetime` is called with
no exception handler, so a parse failure raises out of the row loop. -/
def appRowDob (row : Row) : Except String (Option String) :=
  match rowGet row "dob" with
  | none => .ok none
  | some c =>
    if cellIsNa c then .ok none
    else
      match parseDate c with
      | some iso => .ok (some iso)
      | none => .error "dob parse failed"

/-- The student `update_one(..., upsert=True)` of `upload_marks`:
`$set` always writes `student_name` (possibly `None`); `dob_hash`,
`register_number` and `created_at` are under `$setOnInsert` and hence
only written when the upsert inserts a new document. -/
def appUpsertStudent (students : List Student) (reg : String)
    (name : Option String) (dob : Option String) (now : Nat) : List Student :=
  if students.any (fun s => s.register_number == reg) then
    updateFirst (fun s => s.register_number == reg)
      (fun s => { s with student_name := name }) students
  else
    students ++ [{ register_number := reg, student_name := name,
                   dob_hash := if truthy dob then dob.map hash_text else none,
                   created_at := now }]

/-- The mark `update_one(..., upsert=True)` of `upload_marks`: `$set`
overwrites `marks`, `uploaded_by`, `uploaded_at`, `source_file`; on
insert the key fields come from the filter. -/
def appUpsertMark (marks : List Mark) (reg subj : String) (m : Int)
    (uploader : String) (now : Nat) (src : String) : List Mark :=
  if marks.any (fun mk => mk.register_number == reg && mk.subject_code == subj) then
    updateFirst (fun mk => mk.register_number == reg && mk.subject_code == subj)
      (fun mk => { mk with
                     marks := m, uploaded_by := uploader,
                     uploaded_at := now, source_file := some src }) marks
  else
    marks ++ [{ register_number := reg, subject_code := subj, marks := m,
                uploaded_by := uploader, uploaded_at := now,
                source_file := some src, subject_name := none,
                exam_date := none : Mark }]

/-- Outcome of one iteration of the row loop in `upload_marks`. -/
inductive RowOutcome where
  | skipped
  | inserted
  | failed (msg : String)
deriving DecidableEq, Repr

/-- One iteration of the row loop of `upload_marks`.  A `failed`
outcome models an exception escaping the loop body (the only handled
exception is `DuplicateKeyError`, which cannot arise in this
sequential model); the state already mutated before the raise is kept,
as in the real system. -/
def appProcessRow (db : DB) (row : Row) (uploader src : String) (now : Nat) :
    DB × RowOutcome :=
  if appRowSkip row then (db, .skipped)
  else
    match appRowDob row with
    | .error e => (db, .failed e)
    | .ok dob =>
      let students1 :=
        appUpsertStudent db.students (appRowReg row) (appRowName row) dob now
      let db1 : DB := { db with students := students1 }
      match cellFloat (appRowMarks row) with
      | none => (db1, .failed "could not convert marks to float")
      | some m =>
        let marks1 :=
          appUpsertMark db1.marks (appRowReg row) (appRowSubject row)
            m uploader now src
        ({ db1 with marks := marks1 }, .inserted)

/-- The row loop of `upload_marks`: rows are processed in order; a
`failed` row aborts the loop (its exception propagates out of the
request handler), keeping the writes made so far. -/
def appProcessRows (db : DB) (rows : List Row) (uploader src : String)
    (now : Nat) (acc : Nat) : DB × Except String Nat :=
  match rows with
  | [] => (db, .ok acc)
  | row :: rest =>
    match appProcessRow db row uploader src now with
    | (db1, .skipped) => appProcessRows db1 rest uploader src now acc
    | (db1, .inserted) => appProcessRows db1 rest uploader src now (acc + 1)
    | (db1, .failed e) => (db1, .error e)

/-- Result of `upload_marks` after the file was read successfully. -/
inductive UploadResult where
  | missingColumns
  | aborted (msg : String)
  | success (processed : Nat)
deriving DecidableEq, Repr

/-- Embeds `upload_marks` from the point where the file has been parsed into a
frame: check the required columns, run the row loop, then record one
`uploads` document.  An exception escaping the row loop aborts before
the `uploads` insert. -/
def upload_marks (db : DB) (f : Frame) (uploader src : String) (now : Nat) :
    DB × UploadResult :=
  if !(hasCol f "register_number" && hasCol f "subject_code" && hasCol f "marks") then
    (db, .missingColumns)
  else
    match appProcessRows db f.rows uploader src now 0 with
    | (db1, .ok n) =>
      let uploads1 :=
        db1.uploads ++ [{ filename := src, uploaded_by := uploader,
                          uploaded_at := now }]
      ({ db1 with uploads := uploads1 }, .success n)
    | (db1, .error e) => (db1, .aborted e)

/-! ### The migration script's import path (`migrate_to_mongo.py`,
`import_marks_file`) -/

/-- An entry of the migration script's error list:
`{"row": int(idx) + 2, "error": ...}`. -/
structure RowError where
  row : Nat
  error : String
deriving DecidableEq, Repr

/-- Embeds `str(row[colmap["register_number"]]).strip()`. -/
def migRowReg (row : Row) : String :=
  strip (cellStr ((rowGet row "register_number").getD .na))

/-- Embeds `str(row[colmap["subject_code"]]).strip()`. -/
def migRowSubject (row : Row) : String :=
  strip (cellStr ((rowGet row "subject_code").getD .na))

/-- Embeds `row[colmap["marks"]]`. -/
def migRowMarks (row : Row) : Cell :=
  (rowGet row "marks").getD .na

/-- The skip condition of `import_marks_file`: `pd.isna(reg) or
reg == "" or pd.isna(subject) or pd.isna(marks_val)`.  `reg` and
`subject` are already strings, so their `pd.isna` checks are always
false; note the subject is never compared against the empty string. -/
def migRowSkip (row : Row) : Bool :=
  migRowReg row == "" || cellIsNa (migRowMarks row)

/-- Embeds `dob` extraction in `import_marks_file`: tolerant parsing — on a
parse failure the raw trimmed text is carried through. -/
def migRowDob (row : Row) : Option String :=
  match rowGet row "dob" with
  | none => none
  | some c =>
    if cellIsNa c then none
    else
      match parseDate c with
      | some iso => some iso
      | none => some (strip (cellStr c))

/-- Embeds `student_name` extraction in `import_marks_file`. -/
def migRowName (row : Row) : Option String :=
  match rowGet row "student_name" with
  | none => none
  | some c => if cellIsNa c then none else some (strip (cellStr c))

/-- Embeds `subject_name` extraction in `import_marks_file`. -/
def migRowSubjectName (row : Row) : Option String :=
  match rowGet row "subject_name" with
  | none => none
  | some c => if cellIsNa c then none else some (strip (cellStr c))

/-- Embeds `exam_date` extraction in `import_marks_file` (same tolerant
fallback as `dob`). -/
def migRowExamDate (row : Row) : Option String :=
  match rowGet row "exam_date" with
  | none => none
  | some c =>
    if cellIsNa c then none
    else
      match parseDate c with
      | some iso => some iso
      | none => some (strip (cellStr c))

/-- The student handling of `import_marks_file`: insert when absent
(`dob_hash` from `dob` when truthy, else `None`); when present, only
if a truthy `dob` is given and the stored `dob_hash` is falsy does it
`$set` both `dob_hash` and `student_name`. -/
def migUpsertStudent (students : List Student) (reg : String)
    (name dob : Option String) (now : Nat) : List Student :=
  match findStudent students reg with
  | none =>
    students ++ [{ register_number := reg, student_name := name,
                   dob_hash := if truthy dob then dob.map hash_text else none,
                   created_at := now }]
  | some existing =>
    if truthy dob && !truthy existing.dob_hash then
      updateFirst (fun s => s.register_number == reg)
        (fun s => { s with dob_hash := dob.map hash_text, student_name := name })
        students
    else students

/-- Embeds `marks_col.insert_one` in `import_marks_file`: a plain insert, not
an upsert.  When the web app's unique compound index exists, inserting
a duplicate `(register_number, subject_code)` raises `DuplicateKeyError`
(caught by the per-row handler); without it the duplicate is stored. -/
def migInsertMark (db : DB) (reg subj : String) (m : Int)
    (sname edate : Option String) (now : Nat) : Except String DB :=
  if db.marksUnique && (findMark db.marks reg subj).isSome then
    .error "duplicate key"
  else
    let doc : Mark :=
      { register_number := reg, subject_code := subj, marks := m,
        uploaded_by := "migration-script", uploaded_at := now,
        source_file := none, subject_name := sname, exam_date := edate }
    .ok { db with marks := db.marks ++ [doc] }

/-- The body of one iteration of the row loop of `import_marks_file`;
the whole body runs inside `try`/`except`, so any failure is reported
as an error value (and any state mutated before the failure is kept,
as in the real system). -/
def migProcessRow (db : DB) (row : Row) (now : Nat) : DB × Except String Unit :=
  if migRowSkip row then (db, .error "missing required")
  else
    let students1 :=
      migUpsertStudent db.students (migRowReg row) (migRowName row)
        (migRowDob row) now
    let db1 : DB := { db with students := students1 }
    match cellFloat (migRowMarks row) with
    | none => (db1, .error "could not convert marks to float")
    | some m =>
      match migInsertMark db1 (migRowReg row) (migRowSubject row) m
          (migRowSubjectName row) (migRowExamDate row) now with
      | .ok db2 => (db2, .ok ())
      | .error e => (db1, .error e)

/-- The row loop of `import_marks_file`: every row is attempted; a
failing row contributes `{"row": idx + 2, "error": ...}` to the error
list and the loop continues with the next row. -/
def migProcessRows (db : DB) (rows : List Row) (now idx inserted : Nat)
    (errs : List RowError) : DB × Nat × List RowError :=
  match rows with
  | [] => (db, inserted, errs)
  | row :: rest =>
    match migProcessRow db row now with
    | (db1, .ok _) => migProcessRows db1 rest now (idx + 1) (inserted + 1) errs
    | (db1, .error e) =>
      migProcessRows db1 rest now (idx + 1) inserted
        (errs ++ [{ row := idx + 2, error := e }])

/-- Result of `import_marks_file` after the file has been read into a
frame.  `emptyFile` models the early `{"inserted": 0, "errors":
["empty file"]}` return for a frame with no data rows. -/
inductive ImportResult where
  | emptyFile
  | missingColumn (c : String)
  | imported (inserted : Nat) (errors : List RowError)
deriving DecidableEq, Repr

/-- Embeds `import_marks_file` from the point where the file has been parsed:
the `df.empty` early return, then the required-column check (in order
`register_number`, `subject_code`, `marks`), then the row loop. -/
def import_marks_file (db : DB) (f : Frame) (now : Nat) : DB × ImportResult :=
  if f.rows.isEmpty then (db, .emptyFile)
  else
    match ["register_number", "subject_code", "marks"].find?
        (fun c => !hasCol f c) with
    | some c => (db, .missingColumn c)
    | none =>
      let res := migProcessRows db f.rows now 0 0 []
      (res.1, .imported res.2.1 res.2.2)

/-! ### `models.py` helpers (defined in the repo but imported nowhere) -/

/-- Embeds `upsert_student` of `models.py`: on an existing student a truthy
`dob` unconditionally overwrites `dob_hash`; new students are inserted
without a `student_name` field.  This helper is not called by
either import path. -/
def upsert_student (students : List Student) (reg : String)
    (dob : Option String) (now : Nat) : List Student :=
  match findStudent students reg with
  | some _ =>
    if truthy dob then
      updateFirst (fun s => s.register_number == reg)
        (fun s => { s with dob_hash := dob.map hash_text }) students
    else students
  | none =>
    students ++ [{ register_number := reg, student_name := none,
                   dob_hash := if truthy dob then dob.map hash_text else none,
                   created_at := now }]

/-! ### Student lookup and admin delete (`app.py`) -/

/-- Response of the `/api/students/lookup` route. -/
inductive LookupResult where
  | badRequest
  | authFailure
  | ok (register_number : String) (student_name : Option String)
      (marks : List Mark)
deriving DecidableEq, Repr

/-- The `lookup` route: trim both inputs, reject empty ones (HTTP 400),
then find the student and verify the dob candidate against the stored
hash; no-match and hash-mismatch produce the same `authFailure`
(HTTP 401 `Invalid details`). -/
def lookup (db : DB) (regIn dobIn : String) : LookupResult :=
  let reg := strip regIn
  let dob := strip dobIn
  if reg == "" || dob == "" then .badRequest
  else
    match findStudent db.students reg with
    | none => .authFailure
    | some s =>
      if !verify_hash dob s.dob_hash then .authFailure
      else .ok reg s.student_name
        (db.marks.filter (fun m => m.register_number == reg))

/-- The admin `delete_upload` route, on the sanitized filename: reject
an empty name, otherwise `delete_one` the matching uploads document and
`delete_many` the marks documents whose `source_file` equals the name
(the blob removal on disk is outside the storage model). -/
def delete_upload (db : DB) (name : String) : DB :=
  if name == "" then db
  else
    { db with
        uploads := eraseFirst (fun u => u.filename == name) db.uploads,
        marks := db.marks.filter (fun m => !(m.source_file == some name)) }

/-! ### Generic lemmas about the storage primitives -/

theorem updateFirst_length (p : α → Bool) (f : α → α) :
    ∀ l : List α, (updateFirst p f l).length = l.length := by
  intro l
  induction l with
  | nil => rfl
  | cons x xs ih =>
    cases hp : p x with
    | true => simp [updateFirst, hp]
    | false => simp [updateFirst, hp, ih]

theorem find?_updateFirst_self (p : α → Bool) (f : α → α) (l : List α)
    (hf : ∀ x, p (f x) = p x) :
    (updateFirst p f l).find? p = (l.find? p).map f := by
  induction l with
  | nil => rfl
  | cons x xs ih =>
    cases hp : p x with
    | true => simp [updateFirst, hp, List.find?_cons, hf]
    | false => simp [updateFirst, hp, List.find?_cons, ih]

theorem find?_updateFirst_other (p q : α → Bool) (f : α → α) (l : List α)
    (hq : ∀ x, q (f x) = q x) (hpq : ∀ x, p x = true → q x = false) :
    (updateFirst p f l).find? q = l.find? q := by
  induction l with
  | nil => rfl
  | cons x xs ih =>
    cases hp : p x with
    | true =>
      have hqx := hpq x hp
      simp [updateFirst, hp, List.find?_cons, hq, hqx]
    | false =>
      cases hqx : q x with
      | true => simp [updateFirst, hp, List.find?_cons, hqx]
      | false => simp [updateFirst, hp, List.find?_cons, hqx, ih]

theorem filter_updateFirst_length (p q : α → Bool) (f : α → α) (l : List α)
    (hq : ∀ x, q (f x) = q x) :
    ((updateFirst p f l).filter q).length = (l.filter q).length := by
  induction l with
  | nil => rfl
  | cons x xs ih =>
    cases hp : p x with
    | true =>
      cases hqx : q x with
      | true => simp [updateFirst, hp, List.filter_cons, hq, hqx]
      | false => simp [updateFirst, hp, List.filter_cons, hq, hqx]
    | false =>
      cases hqx : q x with
      | true => simp [updateFirst, hp, List.filter_cons, hqx, ih]
      | false => simp [updateFirst, hp, List.filter_cons, hqx, ih]

theorem eraseFirst_filter_length (p : α → Bool) :
    ∀ l : List α, ((eraseFirst p l).filter p).length = (l.filter p).length - 1 := by
  intro l
  induction l with
  | nil => rfl
  | cons x xs ih =>
    cases hp : p x with
    | true => simp [eraseFirst, hp, List.filter_cons]
    | false => simp [eraseFirst, hp, List.filter_cons, ih]

theorem mem_eraseFirst_of_not_pred {p : α → Bool} {x : α} (hpx : p x = false) :
    ∀ {l : List α}, x ∈ l → x ∈ eraseFirst p l := by
  intro l
  induction l with
  | nil => intro hx; cases hx
  | cons y ys ih =>
    intro hx
    cases hp : p y with
    | true =>
      cases hx with
      | head => simp [hp] at hpx
      | tail _ hmem => simpa [eraseFirst, hp] using hmem
    | false =>
      cases hx with
      | head => simp [eraseFirst, hp]
      | tail _ hmem =>
        rw [eraseFirst, if_neg (by simp [hp])]
        exact List.mem_cons_of_mem y (ih hmem)

theorem mem_of_mem_eraseFirst {p : α → Bool} {x : α} :
    ∀ {l : List α}, x ∈ eraseFirst p l → x ∈ l := by
  intro l
  induction l with
  | nil => intro hx; simp [eraseFirst] at hx
  | cons y ys ih =>
    intro hx
    cases hp : p y with
    | true =>
      rw [eraseFirst, if_pos hp] at hx
      exact List.mem_cons_of_mem y hx
    | false =>
      rw [eraseFirst, if_neg (by simp [hp])] at hx
      cases hx with
      | head => exact List.mem_cons_self x ys
      | tail _ hmem => exact List.mem_cons_of_mem y (ih hmem)

/-! ### Lemmas about the student upserts -/

/-- The web app's student upsert never touches the stored `dob_hash` of
a student that already exists (the hash sits under `$setOnInsert`). -/
theorem findStudent_appUpsertStudent (students : List Student)
    (reg r : String) (name dob : Option String) (now : Nat) (s0 : Student)
    (h : findStudent students r = some s0) :
    ∃ s1, findStudent (appUpsertStudent students reg name dob now) r = some s1
      ∧ s1.dob_hash = s0.dob_hash := by
  have h' : students.find? (fun s => s.register_number == r) = some s0 := h
  have hmem := List.mem_of_find?_eq_some h'
  have hps := List.find?_some h'
  by_cases hr : r = reg
  · subst hr
    have hany : students.any (fun s => s.register_number == r) = true := by
      rw [List.any_eq_true]
      exact ⟨s0, hmem, hps⟩
    have hu := find?_updateFirst_self (fun s : Student => s.register_number == r)
      (fun s => { s with student_name := name }) students (fun x => rfl)
    refine ⟨{ s0 with student_name := name }, ?_, rfl⟩
    rw [appUpsertStudent, if_pos hany, findStudent, hu, h']
    rfl
  · rw [appUpsertStudent]
    by_cases hany : students.any (fun s => s.register_number == reg) = true
    · rw [if_pos hany]
      have hpq : ∀ x : Student, (x.register_number == reg) = true →
          (x.register_number == r) = false := by
        intro x hx
        have hxr : x.register_number = reg := by simpa using hx
        simp [hxr, Ne.symm hr]
      have hu := find?_updateFirst_other (fun s : Student => s.register_number == reg)
        (fun s => s.register_number == r)
        (fun s => { s with student_name := name }) students (fun x => rfl) hpq
      exact ⟨s0, by rw [findStudent, hu, h'], rfl⟩
    · rw [if_neg hany]
      refine ⟨s0, ?_, rfl⟩
      rw [findStudent, List.find?_append, h']
      rfl

/-- After the web app's student upsert on a row's register number, the
stored `student_name` of that student is exactly the row's (possibly
null) value. -/
theorem studentName_appUpsertStudent_existing (students : List Student)
    (reg : String) (name dob : Option String) (now : Nat) (s0 : Student)
    (h : findStudent students reg = some s0) :
    (findStudent (appUpsertStudent students reg name dob now) reg).map
        (·.student_name) = some name := by
  have h' : students.find? (fun s => s.register_number == reg) = some s0 := h
  have hmem := List.mem_of_find?_eq_some h'
  have hps := List.find?_some h'
  have hany : students.any (fun s => s.register_number == reg) = true := by
    rw [List.any_eq_true]
    exact ⟨s0, hmem, hps⟩
  have hu := find?_updateFirst_self (fun s : Student => s.register_number == reg)
    (fun s => { s with student_name := name }) students (fun x => rfl)
  rw [appUpsertStudent, if_pos hany, findStudent, hu, h']
  rfl

/-- The migration script's student handling leaves a student whose
stored `dob_hash` is truthy (non-null, non-empty) entirely unchanged. -/
theorem findStudent_migUpsertStudent_of_truthy (students : List Student)
    (reg r : String) (name dob : Option String) (now : Nat) (s0 : Student)
    (h : findStudent students r = some s0) (ht : truthy s0.dob_hash = true) :
    findStudent (migUpsertStudent students reg name dob now) r = some s0 := by
  have h' : students.find? (fun s => s.register_number == r) = some s0 := h
  cases hex : findStudent students reg with
  | none =>
    simp only [migUpsertStudent, hex]
    rw [findStudent, List.find?_append, h']
    rfl
  | some existing =>
    simp only [migUpsertStudent, hex]
    by_cases hcond : (truthy dob && !truthy existing.dob_hash) = true
    · rw [if_pos hcond]
      by_cases hr : r = reg
      · subst hr
        rw [h] at hex
        cases hex
        simp [ht] at hcond
      · have hpq : ∀ x : Student, (x.register_number == reg) = true →
            (x.register_number == r) = false := by
          intro x hx
          have hxr : x.register_number = reg := by simpa using hx
          simp [hxr, Ne.symm hr]
        have hu := find?_updateFirst_other
          (fun s : Student => s.register_number == reg)
          (fun s => s.register_number == r)
          (fun s => { s with dob_hash := dob.map hash_text, student_name := name })
          students (fun x => rfl) hpq
        rw [findStudent, hu, h']
    · rw [if_neg hcond]
      exact h

/-- The migration script's student handling changes nothing for any
existing student when the row carries no truthy `dob`. -/
theorem findStudent_migUpsertStudent_of_nodob (students : List Student)
    (reg r : String) (name dob : Option String) (now : Nat) (s0 : Student)
    (h : findStudent students r = some s0) (hd : truthy dob = false) :
    findStudent (migUpsertStudent students reg name dob now) r = some s0 := by
  have h' : students.find? (fun s => s.register_number == r) = some s0 := h
  cases hex : findStudent students reg with
  | none =>
    simp only [migUpsertStudent, hex]
    rw [findStudent, List.find?_append, h']
    rfl
  | some existing =>
    simp only [migUpsertStudent, hex]
    rw [if_neg (by simp [hd])]
    exact h

/-- The migration script inserts a fresh student exactly as written in
the source when none exists for the row's register number. -/
theorem findStudent_migUpsertStudent_new (students : List Student)
    (reg : String) (name dob : Option String) (now : Nat)
    (h : findStudent students reg = none) :
    findStudent (migUpsertStudent students reg name dob now) reg =
      some { register_number := reg, student_name := name,
             dob_hash := if truthy dob then dob.map hash_text else none,
             created_at := now } := by
  have h' : students.find? (fun s => s.register_number == reg) = none := h
  simp only [migUpsertStudent, h]
  rw [findStudent, List.find?_append, h']
  simp

/-! ### Row- and batch-level lemmas, web app path -/

/-- Unfolding equation for the row loop. -/
theorem appProcessRows_cons (db : DB) (row : Row) (rest : List Row)
    (uploader src : String) (now acc : Nat) :
    appProcessRows db (row :: rest) uploader src now acc =
      match appProcessRow db row uploader src now with
      | (db1, .skipped) => appProcessRows db1 rest uploader src now acc
      | (db1, .inserted) => appProcessRows db1 rest uploader src now (acc + 1)
      | (db1, .failed e) => (db1, .error e) := rfl

/-- One row of the web app's loop never changes the stored `dob_hash`
of any already-present student (whatever the row carries). -/
theorem studentHash_appProcessRow (db : DB) (row : Row) (uploader src : String)
    (now : Nat) (r : String) (hb : Option String)
    (h : studentHash db r = some hb) :
    studentHash (appProcessRow db row uploader src now).1 r = some hb := by
  cases hskip : appRowSkip row with
  | true => simpa [appProcessRow, hskip] using h
  | false =>
    cases hdob : appRowDob row with
    | error e => simpa [appProcessRow, hskip, hdob] using h
    | ok dob =>
      cases hfs : findStudent db.students r with
      | none => rw [studentHash, hfs] at h; cases h
      | some s0 =>
        rw [studentHash, hfs] at h
        have h2 : s0.dob_hash = hb := by simpa using h
        obtain ⟨s1, hs1, hhash⟩ := findStudent_appUpsertStudent db.students
          (appRowReg row) r (appRowName row) dob now s0 hfs
        cases hf : cellFloat (appRowMarks row) with
        | none =>
          simp [appProcessRow, hskip, hdob, hf, studentHash, hs1, hhash, h2]
        | some m =>
          simp [appProcessRow, hskip, hdob, hf, studentHash, hs1, hhash, h2]

/-- The web app's row loop (any prefix of a batch) never changes the
stored `dob_hash` of any already-present student. -/
theorem studentHash_appProcessRows (rows : List Row) :
    ∀ (db : DB) (uploader src : String) (now acc : Nat) (r : String)
      (hb : Option String), studentHash db r = some hb →
      studentHash (appProcessRows db rows uploader src now acc).1 r = some hb := by
  induction rows with
  | nil => intro db u s now acc r hb h; exact h
  | cons row rest ih =>
    intro db u s now acc r hb h
    have hrow := studentHash_appProcessRow db row u s now r hb h
    rcases hpair : appProcessRow db row u s now with ⟨db1, outcome⟩
    rw [hpair] at hrow
    rw [appProcessRows_cons, hpair]
    cases outcome with
    | skipped => exact ih db1 u s now acc r hb hrow
    | inserted => exact ih db1 u s now (acc + 1) r hb hrow
    | failed e => exact hrow

/-- One row of the web app's loop never touches the `uploads`
collection. -/
theorem uploads_appProcessRow (db : DB) (row : Row) (uploader src : String)
    (now : Nat) :
    (appProcessRow db row uploader src now).1.uploads = db.uploads := by
  cases hskip : appRowSkip row with
  | true => simp [appProcessRow, hskip]
  | false =>
    cases hdob : appRowDob row with
    | error e => simp [appProcessRow, hskip, hdob]
    | ok dob =>
      cases hf : cellFloat (appRowMarks row) with
      | none => simp [appProcessRow, hskip, hdob, hf]
      | some m => simp [appProcessRow, hskip, hdob, hf]

/-- The web app's row loop never touches the `uploads` collection. -/
theorem uploads_appProcessRows (rows : List Row) :
    ∀ (db : DB) (uploader src : String) (now acc : Nat),
      (appProcessRows db rows uploader src now acc).1.uploads = db.uploads := by
  induction rows with
  | nil => intro db u s now acc; rfl
  | cons row rest ih =>
    intro db u s now acc
    have hrow := uploads_appProcessRow db row u s now
    rcases hpair : appProcessRow db row u s now with ⟨db1, outcome⟩
    rw [hpair] at hrow
    rw [appProcessRows_cons, hpair]
    cases outcome with
    | skipped => rw [ih db1 u s now acc]; exact hrow
    | inserted => rw [ih db1 u s now (acc + 1)]; exact hrow
    | failed e => exact hrow

/-! ### Lemmas about the web app's mark upsert -/

/-- The mark upsert preserves the at-most-one invariant for every
compound key. -/
theorem pairCount_appUpsertMark (marks : List Mark) (reg subj : String)
    (m : Int) (uploader : String) (now : Nat) (src : String) (r su : String)
    (hle : pairCount marks r su ≤ 1) :
    pairCount (appUpsertMark marks reg subj m uploader now src) r su ≤ 1 := by
  by_cases hany : marks.any
      (fun mk => mk.register_number == reg && mk.subject_code == subj) = true
  · rw [appUpsertMark, if_pos hany, pairCount]
    have hfl := filter_updateFirst_length
      (fun mk : Mark => mk.register_number == reg && mk.subject_code == subj)
      (fun mk => mk.register_number == r && mk.subject_code == su)
      (fun mk =>
        { mk with
            marks := m, uploaded_by := uploader,
            uploaded_at := now, source_file := some src })
      marks (fun x => rfl)
    rw [hfl]
    exact hle
  · have hanyf : marks.any
        (fun mk => mk.register_number == reg && mk.subject_code == subj) = false :=
      eq_false_of_ne_true hany
    rw [appUpsertMark, if_neg hany, pairCount, List.filter_append,
      List.length_append]
    by_cases hk : (reg == r && subj == su) = true
    · have hre : reg = r := by
        have hand := (Bool.and_eq_true _ _).mp hk
        simpa using hand.1
      have hsu : subj = su := by
        have hand := (Bool.and_eq_true _ _).mp hk
        simpa using hand.2
      subst hre; subst hsu
      have hnil : marks.filter
          (fun mk => mk.register_number == reg && mk.subject_code == subj) = [] := by
        rw [List.filter_eq_nil_iff]
        intro a ha
        exact List.any_eq_false.mp hanyf a ha
      rw [hnil]
      simp
    · have hk2 : (reg == r && subj == su) = false := eq_false_of_ne_true hk
      have hone : (List.filter
          (fun mk => mk.register_number == r && mk.subject_code == su)
          [({ register_number := reg, subject_code := subj, marks := m,
              uploaded_by := uploader, uploaded_at := now,
              source_file := some src, subject_name := none,
              exam_date := none } : Mark)]).length = 0 := by
        simp [List.filter_cons, hk2]
      rw [hone]
      simpa [pairCount] using hle

/-- Re-processing a row for an existing compound key overwrites the
single stored record's payload fields in place (no second record). -/
theorem findMark_appUpsertMark_existing (marks : List Mark) (reg subj : String)
    (m : Int) (uploader : String) (now : Nat) (src : String) (mk0 : Mark)
    (h : findMark marks reg subj = some mk0) :
    findMark (appUpsertMark marks reg subj m uploader now src) reg subj
      = some { mk0 with
                 marks := m, uploaded_by := uploader,
                 uploaded_at := now, source_file := some src }
    ∧ (appUpsertMark marks reg subj m uploader now src).length = marks.length := by
  have h' : marks.find?
      (fun mk => mk.register_number == reg && mk.subject_code == subj) = some mk0 := h
  have hmem := List.mem_of_find?_eq_some h'
  have hps := List.find?_some h'
  have hany : marks.any
      (fun mk => mk.register_number == reg && mk.subject_code == subj) = true := by
    rw [List.any_eq_true]
    exact ⟨mk0, hmem, hps⟩
  constructor
  · have hu := find?_updateFirst_self
      (fun mk : Mark => mk.register_number == reg && mk.subject_code == subj)
      (fun mk =>
        { mk with
            marks := m, uploaded_by := uploader,
            uploaded_at := now, source_file := some src })
      marks (fun x => rfl)
    rw [appUpsertMark, if_pos hany, findMark, hu, h']
    rfl
  · rw [appUpsertMark, if_pos hany]
    exact updateFirst_length _ _ marks

/-! ### Row- and batch-level lemmas, migration path -/

/-- Unfolding equation for the migration row loop. -/
theorem migProcessRows_cons (db : DB) (row : Row) (rest : List Row)
    (now idx inserted : Nat) (errs : List RowError) :
    migProcessRows db (row :: rest) now idx inserted errs =
      match migProcessRow db row now with
      | (db1, .ok _) => migProcessRows db1 rest now (idx + 1) (inserted + 1) errs
      | (db1, .error e) =>
        migProcessRows db1 rest now (idx + 1) inserted
          (errs ++ [{ row := idx + 2, error := e }]) := rfl

/-- A successful mark insert changes only the `marks` collection. -/
theorem migInsertMark_ok_state (db : DB) (reg subj : String) (m : Int)
    (sname edate : Option String) (now : Nat) (db2 : DB)
    (h : migInsertMark db reg subj m sname edate now = .ok db2) :
    db2.students = db.students ∧ db2.uploads = db.uploads := by
  cases hc : (db.marksUnique && (findMark db.marks reg subj).isSome) with
  | true => simp [migInsertMark, hc] at h
  | false =>
    simp only [migInsertMark, hc, Bool.false_eq_true, if_false] at h
    cases h
    exact ⟨rfl, rfl⟩

/-- One migration row never changes the stored `dob_hash` of a student
whose hash is already truthy (non-null, non-empty). -/
theorem studentHash_migProcessRow_of_truthy (db : DB) (row : Row) (now : Nat)
    (r : String) (hb : Option String)
    (h : studentHash db r = some hb) (ht : truthy hb = true) :
    studentHash (migProcessRow db row now).1 r = some hb := by
  cases hskip : migRowSkip row with
  | true => simpa [migProcessRow, hskip] using h
  | false =>
    cases hfs : findStudent db.students r with
    | none => rw [studentHash, hfs] at h; cases h
    | some s0 =>
      rw [studentHash, hfs] at h
      have h2 : s0.dob_hash = hb := by simpa using h
      have hts : truthy s0.dob_hash = true := by rw [h2]; exact ht
      have hs1 := findStudent_migUpsertStudent_of_truthy db.students
        (migRowReg row) r (migRowName row) (migRowDob row) now s0 hfs hts
      cases hf : cellFloat (migRowMarks row) with
      | none =>
        simp [migProcessRow, hskip, hf, studentHash, hs1, h2]
      | some m =>
        cases hins : migInsertMark { db with students := migUpsertStudent db.students (migRowReg row) (migRowName row) (migRowDob row) now } (migRowReg row) (migRowSubject row) m (migRowSubjectName row) (migRowExamDate row) now with
        | ok db2 =>
          obtain ⟨hstu, _⟩ := migInsertMark_ok_state _ _ _ _ _ _ _ _ hins
          simp [migProcessRow, hskip, hf, hins, studentHash, hstu, hs1, h2]
        | error e =>
          simp [migProcessRow, hskip, hf, hins, studentHash, hs1, h2]

/-- One migration row leaves any existing student untouched when the
row carries no truthy `dob`. -/
theorem studentHash_migProcessRow_of_nodob (db : DB) (row : Row) (now : Nat)
    (r : String) (hb : Option String)
    (h : studentHash db r = some hb) (hd : truthy (migRowDob row) = false) :
    studentHash (migProcessRow db row now).1 r = some hb := by
  cases hskip : migRowSkip row with
  | true => simpa [migProcessRow, hskip] using h
  | false =>
    cases hfs : findStudent db.students r with
    | none => rw [studentHash, hfs] at h; cases h
    | some s0 =>
      rw [studentHash, hfs] at h
      have h2 : s0.dob_hash = hb := by simpa using h
      have hs1 := findStudent_migUpsertStudent_of_nodob db.students
        (migRowReg row) r (migRowName row) (migRowDob row) now s0 hfs hd
      cases hf : cellFloat (migRowMarks row) with
      | none =>
        simp [migProcessRow, hskip, hf, studentHash, hs1, h2]
      | some m =>
        cases hins : migInsertMark { db with students := migUpsertStudent db.students (migRowReg row) (migRowName row) (migRowDob row) now } (migRowReg row) (migRowSubject row) m (migRowSubjectName row) (migRowExamDate row) now with
        | ok db2 =>
          obtain ⟨hstu, _⟩ := migInsertMark_ok_state _ _ _ _ _ _ _ _ hins
          simp [migProcessRow, hskip, hf, hins, studentHash, hstu, hs1, h2]
        | error e =>
          simp [migProcessRow, hskip, hf, hins, studentHash, hs1, h2]

/-- The migration row loop never changes a truthy stored `dob_hash`. -/
theorem studentHash_migProcessRows_of_truthy (rows : List Row) :
    ∀ (db : DB) (now idx inserted : Nat) (errs : List RowError)
      (r : String) (hb : Option String),
      studentHash db r = some hb → truthy hb = true →
      studentHash (migProcessRows db rows now idx inserted errs).1 r = some hb := by
  induction rows with
  | nil => intro db now idx inserted errs r hb h ht; exact h
  | cons row rest ih =>
    intro db now idx inserted errs r hb h ht
    have hrow := studentHash_migProcessRow_of_truthy db row now r hb h ht
    rcases hpair : migProcessRow db row now with ⟨db1, res⟩
    rw [hpair] at hrow
    rw [migProcessRows_cons, hpair]
    cases res with
    | ok u => exact ih db1 now (idx + 1) (inserted + 1) errs r hb hrow ht
    | error e =>
      exact ih db1 now (idx + 1) inserted
        (errs ++ [{ row := idx + 2, error := e }]) r hb hrow ht

/-- Whole-file import via the migration script never changes a truthy
stored `dob_hash`. -/
theorem studentHash_import_marks_file (db : DB) (f : Frame) (now : Nat)
    (r : String) (hb : Option String)
    (h : studentHash db r = some hb) (ht : truthy hb = true) :
    studentHash (import_marks_file db f now).1 r = some hb := by
  rw [import_marks_file]
  by_cases hemp : f.rows.isEmpty = true
  · rw [if_pos hemp]; exact h
  · rw [if_neg hemp]
    cases hfind : ["register_number", "subject_code", "marks"].find?
        (fun c => !hasCol f c) with
    | some c => exact h
    | none => exact studentHash_migProcessRows_of_truthy f.rows db now 0 0 [] r hb h ht

/-- Per-row accounting of the migration loop: every attempted row ends
up either in the success count or as one recorded error entry whose
`row` field is the spreadsheet line number (data index + 2). -/
theorem migProcessRows_accounting (rows : List Row) :
    ∀ (db : DB) (now idx inserted : Nat) (errs : List RowError),
      (migProcessRows db rows now idx inserted errs).2.1
          + (migProcessRows db rows now idx inserted errs).2.2.length
        = inserted + errs.length + rows.length
      ∧ ∀ e ∈ (migProcessRows db rows now idx inserted errs).2.2,
          e ∈ errs ∨ (idx + 2 ≤ e.row ∧ e.row ≤ idx + rows.length + 1) := by
  induction rows with
  | nil =>
    intro db now idx inserted errs
    exact ⟨rfl, fun e he => Or.inl he⟩
  | cons row rest ih =>
    intro db now idx inserted errs
    rcases hpair : migProcessRow db row now with ⟨db1, res⟩
    rw [migProcessRows_cons, hpair]
    cases res with
    | ok u =>
      obtain ⟨hsum, hmem⟩ := ih db1 now (idx + 1) (inserted + 1) errs
      refine ⟨by rw [hsum]; simp only [List.length_cons]; omega, ?_⟩
      intro e he
      rcases hmem e he with he' | ⟨hr1, hr2⟩
      · exact Or.inl he'
      · right; simp only [List.length_cons]; omega
    | error msg =>
      obtain ⟨hsum, hmem⟩ := ih db1 now (idx + 1) inserted
        (errs ++ [{ row := idx + 2, error := msg }])
      refine ⟨by rw [hsum]; simp [List.length_append]; omega, ?_⟩
      intro e he
      rcases hmem e he with he' | ⟨hr1, hr2⟩
      · rcases List.mem_append.mp he' with h1 | h2
        · exact Or.inl h1
        · right
          have he2 : e = { row := idx + 2, error := msg } := by simpa using h2
          subst he2
          simp only [List.length_cons]
          omega
      · right; simp only [List.length_cons]; omega

/-! ### Concrete fixtures for counterexamples and witnesses -/

/-- A fresh storage state in which only the migration script's
`create_indexes` has run (no unique compound index on `marks`). -/
def emptyDB : DB :=
  { students := [], marks := [], uploads := [], marksUnique := false }

/-- A well-formed data row. -/
def sampleRow1 : Row :=
  [("register_number", .str "R1"), ("subject_code", .str "S1"),
   ("marks", .num 88)]

/-- A one-row file with exactly the required columns. -/
def sampleFrame1 : Frame :=
  { cols := ["register_number", "subject_code", "marks"],
    rows := [sampleRow1] }

/-- A row whose `marks` cell is text that does not parse as a number. -/
def badMarksRow : Row :=
  [("register_number", .str "R2"), ("subject_code", .str "S2"),
   ("marks", .str "abc")]

/-- A later well-formed row. -/
def sampleRow3 : Row :=
  [("register_number", .str "R3"), ("subject_code", .str "S3"),
   ("marks", .num 90)]

/-- good row, bad-marks row, good row. -/
def mixedFrame : Frame :=
  { cols := ["register_number", "subject_code", "marks"],
    rows := [sampleRow1, badMarksRow, sampleRow3] }

/-- A single bad-marks row with the required columns present. -/
def badMarksFrame : Frame :=
  { cols := ["register_number", "subject_code", "marks"],
    rows := [badMarksRow] }

/-- A row with an unparseable `dob` cell. -/
def badDobRow : Row :=
  [("register_number", .str "R1"), ("subject_code", .str "S1"),
   ("marks", .num 88), ("dob", .str "garbage")]

/-- A one-row file with an unparseable `dob`. -/
def badDobFrame : Frame :=
  { cols := ["register_number", "subject_code", "marks", "dob"],
    rows := [badDobRow] }

/-- A header-only file (zero data rows) lacking the `marks` column. -/
def headerOnlyFrame : Frame :=
  { cols := ["register_number", "subject_code"], rows := [] }

/-- A stored student with a name and no dob hash. -/
def aliceStudent : Student :=
  { register_number := "R1", student_name := some "Alice",
    dob_hash := none, created_at := 0 }

/-- State holding only `aliceStudent` (web app indexes in place). -/
def aliceDB : DB :=
  { students := [aliceStudent], marks := [], uploads := [],
    marksUnique := true }

/-- A row for `R1` that carries no `student_name` column. -/
def noNameRow : Row :=
  [("register_number", .str "R1"), ("subject_code", .str "S1"),
   ("marks", .num 5)]

/-- A stored student with a set dob hash. -/
def hashedStudent : Student :=
  { register_number := "R1", student_name := some "Alice",
    dob_hash := some (hash_text "2005-01-01"), created_at := 0 }

/-- A second stored student with no dob hash. -/
def bobStudent : Student :=
  { register_number := "R2", student_name := some "Bob",
    dob_hash := none, created_at := 0 }

/-- State with one hash-set student. -/
def hashedDB : DB :=
  { students := [hashedStudent], marks := [], uploads := [],
    marksUnique := true }

/-- State with one hash-set student and one hash-less student. -/
def mixDB : DB :=
  { students := [hashedStudent, bobStudent], marks := [], uploads := [],
    marksUnique := true }

/-- A mark originating from upload `f.csv`. -/
def markF : Mark :=
  { register_number := "R1", subject_code := "S1", marks := 5,
    uploaded_by := "u", uploaded_at := 0, source_file := some "f.csv",
    subject_name := none, exam_date := none }

/-- A mark originating from upload `g.csv`. -/
def markG : Mark :=
  { register_number := "R1", subject_code := "S2", marks := 6,
    uploaded_by := "u", uploaded_at := 0, source_file := some "g.csv",
    subject_name := none, exam_date := none }

/-- A mark imported by the migration script (no `source_file` field). -/
def markM : Mark :=
  { register_number := "R1", subject_code := "S3", marks := 7,
    uploaded_by := "migration-script", uploaded_at := 0,
    source_file := none, subject_name := none, exam_date := none }

/-- State with marks from two uploads plus a migrated mark. -/
def deleteDB : DB :=
  { students := [hashedStudent], marks := [markF, markG, markM],
    uploads := [{ filename := "f.csv", uploaded_by := "u", uploaded_at := 0 },
                { filename := "g.csv", uploaded_by := "u", uploaded_at := 0 }],
    marksUnique := true }

/-- A one-row file lacking the required `marks` column. -/
def noMarksFrame : Frame :=
  { cols := ["register_number", "subject_code"],
    rows := [[("register_number", .str "R1"), ("subject_code", .str "S1")]] }

/-- A mark already stored for the pair `(R1, S1)`. -/
def oldMark : Mark :=
  { register_number := "R1", subject_code := "S1", marks := 10,
    uploaded_by := "old@example.com", uploaded_at := 0,
    source_file := some "old.csv", subject_name := none, exam_date := none }

/-- State with one stored mark for `(R1, S1)`. -/
def oneMarkDB : DB :=
  { students := [], marks := [oldMark], uploads := [], marksUnique := true }

/-! ### Claim theorems -/

/-- C1: For every upload batch (web upload or migration import) and
every row naming the register number of an existing student, the
stored `dob_hash` is changed only when it was previously null/unset
and the row supplies a dob: a non-null stored hash survives both whole
batches unchanged, the web app's row processing never changes any
existing student's stored hash at all, and a migration row without a
truthy dob never changes any existing student's stored hash.  (The
hypothesis `h ≠ ""` holds for every hash the system can store, since
bcrypt hashes are never empty.) -/
theorem C1_dob_hash_set_once (db : DB) (f : Frame) (row : Row)
    (uploader src : String) (now : Nat) (r h r2 : String)
    (hb2 : Option String)
    (hne : h ≠ "") (hdb : studentHash db r = some (some h))
    (hb2' : studentHash db r2 = some hb2)
    (hd : truthy (migRowDob row) = false) :
    studentHash (upload_marks db f uploader src now).1 r = some (some h)
    ∧ studentHash (import_marks_file db f now).1 r = some (some h)
    ∧ studentHash (appProcessRow db row uploader src now).1 r2 = some hb2
    ∧ studentHash (migProcessRow db row now).1 r2 = some hb2 := by
  have ht : truthy (some h) = true := by simp [truthy, hne]
  refine ⟨?_, ?_, ?_, ?_⟩
  · cases hcols : (hasCol f "register_number" && hasCol f "subject_code"
        && hasCol f "marks") with
    | false => simpa [upload_marks, hcols] using hdb
    | true =>
      have hpres := studentHash_appProcessRows f.rows db uploader src now 0
        r (some h) hdb
      rcases hrows : appProcessRows db f.rows uploader src now 0 with ⟨db1, res⟩
      rw [hrows] at hpres
      cases res with
      | ok n => simpa [upload_marks, hcols, hrows, studentHash] using hpres
      | error e => simpa [upload_marks, hcols, hrows] using hpres
  · exact studentHash_import_marks_file db f now r (some h) hdb ht
  · exact studentHash_appProcessRow db row uploader src now r2 hb2 hb2'
  · exact studentHash_migProcessRow_of_nodob db row now r2 hb2 hb2' hd

/-- Witness for C1: the hash-set student `R1` and the hash-less student
`R2` of `mixDB`, against a concrete one-row batch without a dob. -/
theorem C1_dob_hash_set_once_witness :
    studentHash (upload_marks mixDB sampleFrame1 "u" "f.csv" 1).1 "R1"
      = some (some (hash_text "2005-01-01"))
    ∧ studentHash (import_marks_file mixDB sampleFrame1 1).1 "R1"
      = some (some (hash_text "2005-01-01"))
    ∧ studentHash (appProcessRow mixDB sampleRow1 "u" "f.csv" 1).1 "R2"
      = some none
    ∧ studentHash (migProcessRow mixDB sampleRow1 1).1 "R2" = some none :=
  C1_dob_hash_set_once mixDB sampleFrame1 sampleRow1 "u" "f.csv" 1
    "R1" (hash_text "2005-01-01") "R2" none
    (by decide) (by decide) (by decide) (by decide)

/-- C9: a lookup for a register number with no stored student and a
lookup for a stored student whose dob candidate fails hash
verification produce the identical authentication-failure response. -/
theorem C9_lookup_indistinguishable (db1 db2 : DB) (regIn dobIn : String)
    (s : Student)
    (hreg : strip regIn ≠ "") (hdob : strip dobIn ≠ "")
    (hnone : findStudent db1.students (strip regIn) = none)
    (hsome : findStudent db2.students (strip regIn) = some s)
    (hver : verify_hash (strip dobIn) s.dob_hash = false) :
    lookup db1 regIn dobIn = .authFailure
    ∧ lookup db2 regIn dobIn = .authFailure
    ∧ lookup db1 regIn dobIn = lookup db2 regIn dobIn := by
  have hcond : (strip regIn == "" || strip dobIn == "") = false := by
    simp [hreg, hdob]
  have h1 : lookup db1 regIn dobIn = .authFailure := by
    simp [lookup, hcond, hnone]
  have h2 : lookup db2 regIn dobIn = .authFailure := by
    simp [lookup, hcond, hsome, hver]
  exact ⟨h1, h2, h1.trans h2.symm⟩

/-- Witness for C9: student absent in `emptyDB` versus wrong dob for the
stored student of `hashedDB`. -/
theorem C9_lookup_indistinguishable_witness :
    lookup emptyDB "R1" "1999-09-09" = .authFailure
    ∧ lookup hashedDB "R1" "1999-09-09" = .authFailure
    ∧ lookup emptyDB "R1" "1999-09-09" = lookup hashedDB "R1" "1999-09-09" :=
  C9_lookup_indistinguishable emptyDB hashedDB "R1" "1999-09-09"
    hashedStudent (by decide) (by decide) (by decide) (by decide) (by decide)

/-- C10: a student whose stored `dob_hash` is null/absent (or empty)
can never authenticate — every lookup for that register number returns
the authentication failure — and both hash-verification helpers return
`false` (rather than raising) on an empty or absent stored hash. -/
theorem C10_null_hash_lookup_fails (db : DB) (regIn dobIn t : String)
    (s : Student)
    (hreg : strip regIn ≠ "") (hdob : strip dobIn ≠ "")
    (hsome : findStudent db.students (strip regIn) = some s)
    (hnull : s.dob_hash = none ∨ s.dob_hash = some "") :
    lookup db regIn dobIn = .authFailure
    ∧ verify_hash t none = false
    ∧ verify_hash t (some "") = false
    ∧ models_verify_hash t none = false
    ∧ models_verify_hash t (some "") = false := by
  have hver : verify_hash (strip dobIn) s.dob_hash = false := by
    rcases hnull with hn | hn
    · simp [hn, verify_hash]
    · simp [hn, verify_hash]
  have hcond : (strip regIn == "" || strip dobIn == "") = false := by
    simp [hreg, hdob]
  refine ⟨by simp [lookup, hcond, hsome, hver], rfl, rfl, rfl, rfl⟩

/-- Witness for C10: the hash-less student of `aliceDB` and an
arbitrary dob candidate. -/
theorem C10_null_hash_lookup_fails_witness :
    lookup aliceDB "R1" "2001-02-03" = .authFailure
    ∧ verify_hash "2001-02-03" none = false
    ∧ verify_hash "2001-02-03" (some "") = false
    ∧ models_verify_hash "2001-02-03" none = false
    ∧ models_verify_hash "2001-02-03" (some "") = false :=
  C10_null_hash_lookup_fails aliceDB "R1" "2001-02-03" "2001-02-03"
    aliceStudent (by decide) (by decide) (by decide) (Or.inl rfl)

/-- C2 counterexample: importing the same one-row file twice through
the migration script — whose `create_indexes` does not create the
unique compound index and whose row handler uses `insert_one`, not an
upsert — leaves two Mark records for the pair `(R1, S1)`, refuting
both the at-most-one invariant and last-write-wins overwriting. -/
theorem C2_duplicate_pair_counterexample :
    pairCount ((import_marks_file (import_marks_file emptyDB sampleFrame1 0).1
        sampleFrame1 1).1).marks "R1" "S1" = 2 := by decide

/-- C2 amended: on the web app's upload path the invariant does hold —
processing a row keeps every compound key at multiplicity at most one,
and a successfully processed row whose key already exists overwrites
that single record's `marks`, `uploaded_by`, `uploaded_at` and
`source_file` in place without creating a second record.  The
migration import path instead inserts a fresh record per row (see the
counterexample), or records a duplicate-key row error when the web
app's unique index exists; it never overwrites. -/
theorem C2_pair_unique_app_path (db : DB) (row : Row) (uploader src : String)
    (now : Nat) (r su : String) (m : Int) (mk0 : Mark) (d : Option String)
    (hinv : ∀ a b, pairCount db.marks a b ≤ 1)
    (hskip : appRowSkip row = false)
    (hdob : appRowDob row = .ok d)
    (hr : appRowReg row = r) (hsu : appRowSubject row = su)
    (hm : cellFloat (appRowMarks row) = some m)
    (hfound : findMark db.marks r su = some mk0) :
    (∀ a b, pairCount (appProcessRow db row uploader src now).1.marks a b ≤ 1)
    ∧ (appProcessRow db row uploader src now).2 = .inserted
    ∧ findMark (appProcessRow db row uploader src now).1.marks r su
        = some { mk0 with
                   marks := m, uploaded_by := uploader,
                   uploaded_at := now, source_file := some src }
    ∧ (appProcessRow db row uploader src now).1.marks.length
        = db.marks.length := by
  subst hr; subst hsu
  have hred : appProcessRow db row uploader src now =
      ({ db with
           students := appUpsertStudent db.students (appRowReg row)
             (appRowName row) d now,
           marks := appUpsertMark db.marks (appRowReg row)
             (appRowSubject row) m uploader now src },
        .inserted) := by
    simp [appProcessRow, hskip, hdob, hm]
  rw [hred]
  refine ⟨?_, rfl, ?_, ?_⟩
  · intro a b
    exact pairCount_appUpsertMark db.marks _ _ m uploader now src a b (hinv a b)
  · exact (findMark_appUpsertMark_existing db.marks _ _ m uploader now src
      mk0 hfound).1
  · exact (findMark_appUpsertMark_existing db.marks _ _ m uploader now src
      mk0 hfound).2

/-- Witness for the amended C2: re-processing `sampleRow1` against a
state already holding a record for `(R1, S1)`. -/
theorem C2_pair_unique_app_path_witness :
    (∀ a b, pairCount (appProcessRow oneMarkDB sampleRow1 "u" "new.csv" 7).1.marks a b ≤ 1)
    ∧ (appProcessRow oneMarkDB sampleRow1 "u" "new.csv" 7).2 = .inserted
    ∧ findMark (appProcessRow oneMarkDB sampleRow1 "u" "new.csv" 7).1.marks "R1" "S1"
        = some { oldMark with
                   marks := 88, uploaded_by := "u",
                   uploaded_at := 7, source_file := some "new.csv" }
    ∧ (appProcessRow oneMarkDB sampleRow1 "u" "new.csv" 7).1.marks.length
        = oneMarkDB.marks.length :=
  C2_pair_unique_app_path oneMarkDB sampleRow1 "u" "new.csv" 7 "R1" "S1"
    88 oldMark none
    (by intro a b
        have hfl := List.length_filter_le
          (fun mk : Mark => mk.register_number == a && mk.subject_code == b)
          oneMarkDB.marks
        simpa [pairCount] using hfl)
    (by decide) rfl (by decide) (by decide) (by decide) (by decide)

/-- C3 counterexample: on the web app's upload path, a numeric-coercion
failure in row 2 of a readable file with the required columns is not
caught: the batch aborts, the valid row 3 is never processed, and no
error list is produced (the response type carries none). -/
theorem C3_row_exception_aborts_counterexample :
    (upload_marks emptyDB mixedFrame "staff@example.com" "f.csv" 0).2
        = .aborted "could not convert marks to float"
    ∧ pairCount
        (upload_marks emptyDB mixedFrame "staff@example.com" "f.csv" 0).1.marks
        "R3" "S3" = 0 := by decide

/-- C3 amended: only the migration import path has the claimed
behaviour — every row is attempted, each failing row contributes
exactly one error entry carrying the spreadsheet line number
(data index + 2) and processing continues, so successes plus recorded
errors always account for every row.  The web app's upload path aborts
on the first uncaught row exception (see the counterexample). -/
theorem C3_migration_rows_never_abort (db : DB) (f : Frame) (now : Nat)
    (hrows : f.rows ≠ [])
    (hc1 : hasCol f "register_number" = true)
    (hc2 : hasCol f "subject_code" = true)
    (hc3 : hasCol f "marks" = true) :
    ∃ n errs, (import_marks_file db f now).2 = .imported n errs
      ∧ n + errs.length = f.rows.length
      ∧ ∀ e ∈ errs, 2 ≤ e.row ∧ e.row ≤ f.rows.length + 1 := by
  have hemp : f.rows.isEmpty = false := by
    cases hfr : f.rows with
    | nil => exact absurd hfr hrows
    | cons a l => rfl
  have hfind : (["register_number", "subject_code", "marks"].find?
      (fun c => !hasCol f c)) = none := by
    simp [List.find?, hc1, hc2, hc3]
  have hred : import_marks_file db f now =
      ((migProcessRows db f.rows now 0 0 []).1,
        .imported (migProcessRows db f.rows now 0 0 []).2.1
          (migProcessRows db f.rows now 0 0 []).2.2) := by
    rw [import_marks_file, if_neg (by simp [hemp]), hfind]
  rw [hred]
  refine ⟨_, _, rfl, ?_, ?_⟩
  · have hacc := (migProcessRows_accounting f.rows db now 0 0 []).1
    simpa using hacc
  · intro e he
    rcases (migProcessRows_accounting f.rows db now 0 0 []).2 e he with
      h0 | ⟨hr1, hr2⟩
    · exact absurd h0 (List.not_mem_nil e)
    · exact ⟨by omega, by omega⟩

/-- Witness for the amended C3: the three-row file whose middle row has
unparseable marks, imported via the migration path. -/
theorem C3_migration_rows_never_abort_witness :
    ∃ n errs, (import_marks_file emptyDB mixedFrame 0).2 = .imported n errs
      ∧ n + errs.length = mixedFrame.rows.length
      ∧ ∀ e ∈ errs, 2 ≤ e.row ∧ e.row ≤ mixedFrame.rows.length + 1 :=
  C3_migration_rows_never_abort emptyDB mixedFrame 0
    (by decide) (by decide) (by decide) (by decide)

/-- C4 counterexample: a readable header-only file (zero data rows)
lacking the required `marks` column is reported by the migration
importer as an empty file — not as a missing-column failure (though
the zero-writes half of the claim does hold there). -/
theorem C4_empty_file_counterexample :
    hasCol headerOnlyFrame "marks" = false
    ∧ (import_marks_file emptyDB headerOnlyFrame 0).2 = .emptyFile
    ∧ (import_marks_file emptyDB headerOnlyFrame 0).2 ≠ .missingColumn "marks"
    ∧ (import_marks_file emptyDB headerOnlyFrame 0).1 = emptyDB := by decide

/-- C4 amended: a file lacking a required column always produces zero
collection writes; the web app's upload path always fails it with the
missing-columns error, and the migration path does so whenever the
file has at least one data row — but a zero-data-row file is reported
as empty by the migration path before its column check runs. -/
theorem C4_missing_column_zero_writes (db : DB) (f : Frame)
    (uploader src : String) (now : Nat)
    (hmiss : (hasCol f "register_number" && hasCol f "subject_code"
      && hasCol f "marks") = false) :
    upload_marks db f uploader src now = (db, .missingColumns)
    ∧ (f.rows ≠ [] → ∃ c, import_marks_file db f now = (db, .missingColumn c)
        ∧ hasCol f c = false)
    ∧ (f.rows = [] → import_marks_file db f now = (db, .emptyFile)) := by
  refine ⟨?_, ?_, ?_⟩
  · simp [upload_marks, hmiss]
  · intro hrows
    have hemp : f.rows.isEmpty = false := by
      cases hfr : f.rows with
      | nil => exact absurd hfr hrows
      | cons a l => rfl
    cases h1 : hasCol f "register_number" with
    | false =>
      refine ⟨"register_number", ?_, h1⟩
      have hfind : (["register_number", "subject_code", "marks"].find?
          (fun c => !hasCol f c)) = some "register_number" := by
        simp [List.find?, h1]
      rw [import_marks_file, if_neg (by simp [hemp]), hfind]
    | true =>
      cases h2 : hasCol f "subject_code" with
      | false =>
        refine ⟨"subject_code", ?_, h2⟩
        have hfind : (["register_number", "subject_code", "marks"].find?
            (fun c => !hasCol f c)) = some "subject_code" := by
          simp [List.find?, h1, h2]
        rw [import_marks_file, if_neg (by simp [hemp]), hfind]
      | true =>
        cases h3 : hasCol f "marks" with
        | false =>
          refine ⟨"marks", ?_, h3⟩
          have hfind : (["register_number", "subject_code", "marks"].find?
              (fun c => !hasCol f c)) = some "marks" := by
            simp [List.find?, h1, h2, h3]
          rw [import_marks_file, if_neg (by simp [hemp]), hfind]
        | true => rw [h1, h2, h3] at hmiss; simp at hmiss
  · intro hrows
    rw [import_marks_file, if_pos (by rw [hrows]; rfl)]

/-- Witness for the amended C4: a one-row file lacking `marks`. -/
theorem C4_missing_column_zero_writes_witness :
    upload_marks emptyDB noMarksFrame "u" "f.csv" 0
        = (emptyDB, .missingColumns)
    ∧ (noMarksFrame.rows ≠ [] →
        ∃ c, import_marks_file emptyDB noMarksFrame 0
            = (emptyDB, .missingColumn c) ∧ hasCol noMarksFrame c = false)
    ∧ (noMarksFrame.rows = [] →
        import_marks_file emptyDB noMarksFrame 0 = (emptyDB, .emptyFile)) :=
  C4_missing_column_zero_writes emptyDB noMarksFrame "u" "f.csv" 0 (by decide)

/-- C5: the admin delete operation removes exactly the Mark records
whose `source_file` equals the (sanitized, non-empty) filename and no
others, removes the first matching uploads document (`delete_one`) —
so every non-matching uploads document survives and nothing new
appears — and leaves the students collection untouched. -/
theorem C5_delete_upload_cascade (db : DB) (name : String) (u v : Upload)
    (hne : name ≠ "")
    (hu : u ∈ db.uploads) (hune : u.filename ≠ name)
    (hv : v ∈ (delete_upload db name).uploads) :
    (delete_upload db name).students = db.students
    ∧ (delete_upload db name).marks
        = db.marks.filter (fun mk => !(mk.source_file == some name))
    ∧ countUploads (delete_upload db name).uploads name
        = countUploads db.uploads name - 1
    ∧ u ∈ (delete_upload db name).uploads
    ∧ v ∈ db.uploads := by
  have hif : (name == "") = false := by simp [hne]
  have hv' := hv
  simp only [delete_upload, hif, Bool.false_eq_true, if_false] at hv' ⊢
  refine ⟨trivial, trivial, ?_, ?_, ?_⟩
  · exact eraseFirst_filter_length (fun w => w.filename == name) db.uploads
  · exact mem_eraseFirst_of_not_pred (by simp [hune]) hu
  · exact mem_of_mem_eraseFirst hv'

/-- Witness for C5: deleting `f.csv` from `deleteDB`; the upload record
for `g.csv` survives and every remaining record was already present. -/
theorem C5_delete_upload_cascade_witness :
    (delete_upload deleteDB "f.csv").students = deleteDB.students
    ∧ (delete_upload deleteDB "f.csv").marks
        = deleteDB.marks.filter (fun mk => !(mk.source_file == some "f.csv"))
    ∧ countUploads (delete_upload deleteDB "f.csv").uploads "f.csv"
        = countUploads deleteDB.uploads "f.csv" - 1
    ∧ ({ filename := "g.csv", uploaded_by := "u", uploaded_at := 0 } : Upload)
        ∈ (delete_upload deleteDB "f.csv").uploads
    ∧ ({ filename := "g.csv", uploaded_by := "u", uploaded_at := 0 } : Upload)
        ∈ deleteDB.uploads :=
  C5_delete_upload_cascade deleteDB "f.csv"
    { filename := "g.csv", uploaded_by := "u", uploaded_at := 0 }
    { filename := "g.csv", uploaded_by := "u", uploaded_at := 0 }
    (by decide) (by decide) (by decide) (by decide)

/-- C6 counterexample: a processed row that supplies no `student_name`
value overwrites the stored name with null (`$set student_name: None`),
refuting the claim that such a row leaves the stored name unchanged. -/
theorem C6_name_overwritten_counterexample :
    studentName aliceDB "R1" = some (some "Alice")
    ∧ studentName (appProcessRow aliceDB noNameRow "u" "f.csv" 1).1 "R1"
        = some none := by decide

/-- C6 amended: on every row the web app's upload path processes past
the dob step for an existing student, the stored `student_name` is
unconditionally overwritten with the row's computed value — which is
null when the row supplies no (non-NaN) `student_name`. -/
theorem C6_name_always_overwritten (db : DB) (row : Row)
    (uploader src : String) (now : Nat) (d : Option String) (s0 : Student)
    (hskip : appRowSkip row = false)
    (hdob : appRowDob row = .ok d)
    (hex : findStudent db.students (appRowReg row) = some s0) :
    studentName (appProcessRow db row uploader src now).1 (appRowReg row)
      = some (appRowName row) := by
  have hname := studentName_appUpsertStudent_existing db.students
    (appRowReg row) (appRowName row) d now s0 hex
  cases hf : cellFloat (appRowMarks row) with
  | none => simp [appProcessRow, hskip, hdob, hf, studentName, hname]
  | some m => simp [appProcessRow, hskip, hdob, hf, studentName, hname]

/-- Witness for the amended C6: the no-name row against `aliceDB`. -/
theorem C6_name_always_overwritten_witness :
    studentName (appProcessRow aliceDB noNameRow "u" "f.csv" 1).1
        (appRowReg noNameRow) = some (appRowName noNameRow) :=
  C6_name_always_overwritten aliceDB noNameRow "u" "f.csv" 1 none
    aliceStudent (by decide) rfl (by decide)

/-- C7 counterexample: on the web app's upload path an unparseable
`dob` raises out of the unguarded `pd.to_datetime` call: the row is
rejected and the whole batch aborts with no mark stored, refuting the
claim that such a row is carried through and processed normally. -/
theorem C7_dob_parse_failure_aborts_counterexample :
    (upload_marks emptyDB badDobFrame "u" "f.csv" 0).2
        = .aborted "dob parse failed"
    ∧ (upload_marks emptyDB badDobFrame "u" "f.csv" 0).1.marks = [] := by
  decide

/-- C7 amended: only the migration import path is dob-tolerant — an
unparseable `dob` cell falls back to its raw trimmed text, the row is
processed normally (succeeding whenever its marks parse and no
duplicate-key conflict arises), and for a fresh student the raw text
is hashed as opaque text into `dob_hash`.  The web app's upload path
instead aborts the batch (see the counterexample). -/
theorem C7_migration_dob_fallback (db : DB) (row : Row) (now : Nat)
    (c : Cell) (m : Int)
    (hc : rowGet row "dob" = some c) (hna : cellIsNa c = false)
    (hp : parseDate c = none)
    (hskip : migRowSkip row = false)
    (hnew : findStudent db.students (migRowReg row) = none)
    (hm : cellFloat (migRowMarks row) = some m)
    (hdup : (db.marksUnique
      && (findMark db.marks (migRowReg row) (migRowSubject row)).isSome)
        = false) :
    migRowDob row = some (strip (cellStr c))
    ∧ (migProcessRow db row now).2 = .ok ()
    ∧ studentHash (migProcessRow db row now).1 (migRowReg row)
        = some (if truthy (migRowDob row)
                then (migRowDob row).map hash_text else none) := by
  have hdobv : migRowDob row = some (strip (cellStr c)) := by
    simp [migRowDob, hc, hna, hp]
  have hnewfind := findStudent_migUpsertStudent_new db.students
    (migRowReg row) (migRowName row) (migRowDob row) now hnew
  have hins : migInsertMark { db with students := migUpsertStudent db.students (migRowReg row) (migRowName row) (migRowDob row) now } (migRowReg row) (migRowSubject row) m (migRowSubjectName row) (migRowExamDate row) now
      = .ok { { db with students := migUpsertStudent db.students (migRowReg row) (migRowName row) (migRowDob row) now } with
                marks := { db with students := migUpsertStudent db.students (migRowReg row) (migRowName row) (migRowDob row) now }.marks
                  ++ [{ register_number := migRowReg row,
                        subject_code := migRowSubject row, marks := m,
                        uploaded_by := "migration-script", uploaded_at := now,
                        source_file := none,
                        subject_name := migRowSubjectName row,
                        exam_date := migRowExamDate row }] } := by
    rw [migInsertMark, if_neg (by simpa using hdup)]
  refine ⟨hdobv, ?_, ?_⟩
  · simp [migProcessRow, hskip, hm, hins]
  · simp [migProcessRow, hskip, hm, hins, studentHash, hnewfind]

/-- Witness for the amended C7: the `garbage`-dob row imported into an
empty state. -/
theorem C7_migration_dob_fallback_witness :
    migRowDob badDobRow = some (strip (cellStr (.str "garbage")))
    ∧ (migProcessRow emptyDB badDobRow 0).2 = .ok ()
    ∧ studentHash (migProcessRow emptyDB badDobRow 0).1 (migRowReg badDobRow)
        = some (if truthy (migRowDob badDobRow)
                then (migRowDob badDobRow).map hash_text else none) :=
  C7_migration_dob_fallback emptyDB badDobRow 0 (.str "garbage") 88
    (by decide) (by decide) (by decide) (by decide) (by decide)
    (by decide) (by decide)

/-- C8 counterexample: a readable file with the required columns whose
single row raises on marks coercion aborts before the uploads insert:
no Upload record is created for the batch, refuting "exactly one
Upload record regardless of per-row outcomes". -/
theorem C8_no_upload_record_counterexample :
    (upload_marks emptyDB badMarksFrame "u" "f.csv" 0).1.uploads.length = 0
    ∧ (upload_marks emptyDB badMarksFrame "u" "f.csv" 0).2
        = .aborted "could not convert marks to float" := by decide

/-- C8 amended: for a readable file with the required columns, exactly
one Upload record is appended when the row loop finishes without an
uncaught exception (skipped rows included); when a row exception
aborts the batch, no Upload record is written at all. -/
theorem C8_one_upload_record_iff_no_abort (db : DB) (f : Frame)
    (uploader src : String) (now : Nat)
    (hcols : (hasCol f "register_number" && hasCol f "subject_code"
      && hasCol f "marks") = true) :
    (upload_marks db f uploader src now).1.uploads =
      (match (upload_marks db f uploader src now).2 with
       | .success _ => db.uploads
           ++ [{ filename := src, uploaded_by := uploader, uploaded_at := now }]
       | _ => db.uploads) := by
  have hup := uploads_appProcessRows f.rows db uploader src now 0
  rcases hrows : appProcessRows db f.rows uploader src now 0 with ⟨db1, res⟩
  rw [hrows] at hup
  cases res with
  | ok n =>
    have hup2 : db1.uploads = db.uploads := hup
    simp [upload_marks, hcols, hrows, hup2]
  | error e =>
    have hup2 : db1.uploads = db.uploads := hup
    simp [upload_marks, hcols, hrows, hup2]

/-- Witness for the amended C8: a successful one-row upload appends
exactly one Upload record. -/
theorem C8_one_upload_record_iff_no_abort_witness :
    (upload_marks emptyDB sampleFrame1 "u" "f.csv" 3).1.uploads =
      (match (upload_marks emptyDB sampleFrame1 "u" "f.csv" 3).2 with
       | .success _ => emptyDB.uploads
           ++ [{ filename := "f.csv", uploaded_by := "u", uploaded_at := 3 }]
       | _ => emptyDB.uploads) :=
  C8_one_upload_record_iff_no_abort emptyDB sampleFrame1 "u" "f.csv" 3
    (by decide)

end StudentMarks
